import Mathlib

/-
Verification development for the allergy-analysis dashboard (src/app.py).

Python strings are modelled as `List Char`; Python dicts decoded from JSON
as association lists of string keys and `PyVal` values.  The OpenAI client,
`json.loads`, `pypdf` page extraction and the pandas frame are external
libraries: their behaviour is passed in as explicit oracles/data, while
every piece of logic written in app.py itself (retry loop, regex extraction,
string strip, error dictionaries, tab handlers) is translated directly.
-/

/-- Python `str` modelled as a list of characters. -/
abbrev PyStr := List Char

/-- Values of a Python dict decoded from JSON (app.py treats them loosely). -/
inductive PyVal where
  | pstr : PyStr → PyVal
  | pint : Int → PyVal
  | pbool : Bool → PyVal
  | pnone : PyVal
  | plist : List PyVal → PyVal
  | pdict : List (PyStr × PyVal) → PyVal

instance : Inhabited PyVal := ⟨PyVal.pnone⟩

/-- A Python dict with string keys, as produced by `json.loads` on an object
or built literally in app.py (`{"error": ..., "raw": ...}`). -/
abbrev PyDict := List (PyStr × PyVal)

/-- Characters removed by Python's `str.strip()` (ASCII whitespace). -/
def pyIsSpace (c : Char) : Bool :=
  c = ' ' || c = '\t' || c = '\n' || c = '\r' || c = '\x0b' || c = '\x0c'

/-- Python `str.strip()`: drop leading and trailing whitespace
(app.py line 105 / 185: `res.choices[0].message.content.strip()`). -/
def pyStrip (s : PyStr) : PyStr :=
  ((s.dropWhile pyIsSpace).reverse.dropWhile pyIsSpace).reverse

/-- The longest prefix of `s` ending at the last occurrence of `k`
(the extent of the greedy `.*` before the final `\x7d` of the regex).
When `k` does not occur in `s` the result is `[]` (never used that way
by `greedyBrace`, which checks occurrence first). -/
def takeUpToLast (k : Char) : PyStr → PyStr
  | [] => []
  | c :: rest =>
    if k ∈ rest then c :: takeUpToLast k rest
    else if c = k then [c] else []

/-- One anchored attempt of the regex `\x7b.*\x7d` (with `re.DOTALL`) at the
start of `s`: succeeds iff `s` starts with an opening brace that is followed
by some later closing brace, and then matches greedily through the last
closing brace of `s`. -/
def greedyBrace : PyStr → Option PyStr
  | [] => none
  | c :: rest =>
    if c = '{' ∧ '}' ∈ rest then some (c :: takeUpToLast '}' rest)
    else none

/-- `re.search(r'\x7b.*\x7d', s, re.DOTALL)` (app.py line 106 / 186):
try an anchored match at each position from the left, returning the first
(leftmost, then greedy) match. -/
def reSearchDotAll : PyStr → Option PyStr
  | [] => none
  | c :: rest =>
    match greedyBrace (c :: rest) with
    | some g => some g
    | none => reSearchDotAll rest

/-- Spec-side description of the matched span: the substring of `s` running
from its first opening brace through its last closing brace. -/
def firstToLast (s : PyStr) : PyStr :=
  takeUpToLast '}' (s.dropWhile (fun c => decide (c ≠ '{')))

/-- The reply contains an opening brace followed (strictly later) by a
closing brace, i.e. the regex `\x7b.*\x7d` can match somewhere. -/
def HasBracePair : PyStr → Prop
  | [] => False
  | c :: rest => (c = '{' ∧ '}' ∈ rest) ∨ HasBracePair rest

instance hasBracePairDec : (s : PyStr) → Decidable (HasBracePair s)
  | [] => isFalse (fun h => h.elim)
  | c :: rest =>
    haveI := hasBracePairDec rest
    inferInstanceAs (Decidable ((c = '{' ∧ '}' ∈ rest) ∨ HasBracePair rest))

/-- The parse step shared by `analyze_food_image_with_ai` (lines 104-112) and
`analyze_text_with_ai` (lines 184-192): strip the reply, regex-search for a
brace span, feed the matched group to `json.loads` (the oracle `jl`; `none`
models a `json.JSONDecodeError`), and on either failure return the literal
error dict built in the source, whose `"raw"` entry is `content`, the
stripped reply. -/
def parseStep (jl : PyStr → Option PyDict) (reply : PyStr) : PyDict :=
  let content := pyStrip reply
  match reSearchDotAll content with
  | some g =>
    match jl g with
    | some m => m
    | none => [(("error").data, PyVal.pstr ("JSON 파싱 오류").data),
               (("raw").data, PyVal.pstr content)]
  | none => [(("error").data, PyVal.pstr ("응답 파싱 실패").data),
             (("raw").data, PyVal.pstr content)]

-- ───────────── generic list lemmas ─────────────

theorem dropWhile_append_cons (p : Char → Bool) (c : Char) (hc : p c = false) :
    ∀ (a t : PyStr), List.dropWhile p (a ++ c :: t) = List.dropWhile p a ++ c :: t := by
  intro a t
  induction a with
  | nil => simp [List.dropWhile_cons, hc]
  | cons d a ih =>
    simp only [List.cons_append, List.dropWhile_cons]
    cases hd : p d <;> simp [ih]

theorem mem_of_mem_dropWhile (p : Char → Bool) :
    ∀ (l : PyStr) (c : Char), c ∈ List.dropWhile p l → c ∈ l := by
  intro l c h
  induction l with
  | nil => simp at h
  | cons d t ih =>
    simp only [List.dropWhile_cons] at h
    cases hd : p d
    · rw [hd] at h; simpa using h
    · rw [hd] at h; simp at h ⊢; exact Or.inr (ih h)

-- ───────────── lemmas about the regex model ─────────────

theorem hasBracePair_close {s : PyStr} (h : HasBracePair s) : '}' ∈ s := by
  induction s with
  | nil => exact h.elim
  | cons c rest ih =>
    cases h with
    | inl h => exact List.mem_cons_of_mem c h.2
    | inr h => exact List.mem_cons_of_mem c (ih h)

/-- Leftmost-then-greedy: when the regex can match at all, the matched group
is exactly the span from the first opening brace to the last closing brace. -/
theorem reSearch_eq_firstToLast :
    ∀ (s : PyStr), HasBracePair s → reSearchDotAll s = some (firstToLast s) := by
  intro s h
  induction s with
  | nil => exact h.elim
  | cons c rest ih =>
    by_cases hc : c = '{' ∧ '}' ∈ rest
    · obtain ⟨hceq, hmem⟩ := hc
      subst hceq
      have hg : greedyBrace ('{' :: rest) = some ('{' :: takeUpToLast '}' rest) := by
        simp [greedyBrace, hmem]
      simp only [reSearchDotAll, hg, Option.some.injEq]
      simp [firstToLast, List.dropWhile_cons, takeUpToLast, hmem]
    · have hrest : HasBracePair rest := h.resolve_left hc
      have hne : greedyBrace (c :: rest) = none := by
        simp only [greedyBrace, if_neg hc]
      have step : reSearchDotAll (c :: rest) = reSearchDotAll rest := by
        simp only [reSearchDotAll, hne]
      rw [step, ih hrest]
      have hcne : c ≠ '{' := by
        intro hceq
        exact hc ⟨hceq, by simpa [hceq] using hasBracePair_close hrest⟩
      simp only [firstToLast, List.dropWhile_cons, decide_eq_true_eq]
      rw [if_pos hcne]

theorem takeUpToLast_closed (mid : PyStr) :
    ∀ (s : PyStr), '}' ∉ s →
      takeUpToLast '}' (mid ++ '}' :: s) = mid ++ ['}'] := by
  induction mid with
  | nil =>
    intro s hs
    simp [takeUpToLast, hs]
  | cons c mid ih =>
    intro s hs
    have hmem : '}' ∈ mid ++ '}' :: s := by simp
    simp only [List.cons_append, takeUpToLast, List.append_eq]
    rw [if_pos hmem, ih s hs]

/-- The matched group on a reply that is one brace-delimited block with no
opening brace earlier and no closing brace later. -/
theorem reSearch_extract :
    ∀ (p : PyStr) (mid s : PyStr), (∀ c ∈ p, c ≠ '{') → (∀ c ∈ s, c ≠ '}') →
      reSearchDotAll (p ++ ('{' :: mid ++ ['}']) ++ s) = some ('{' :: mid ++ ['}']) := by
  intro p
  induction p with
  | nil =>
    intro mid s _ hs
    have hmem : '}' ∈ mid ++ '}' :: s := by simp
    have hsno : '}' ∉ s := fun h => (hs '}' h) rfl
    have hshape : ([] : PyStr) ++ ('{' :: mid ++ ['}']) ++ s
        = '{' :: (mid ++ '}' :: s) := by simp
    rw [hshape]
    have hg : greedyBrace ('{' :: (mid ++ '}' :: s))
        = some ('{' :: takeUpToLast '}' (mid ++ '}' :: s)) := by
      simp [greedyBrace, hmem]
    simp only [reSearchDotAll, hg, Option.some.injEq]
    rw [takeUpToLast_closed mid s hsno]
    simp
  | cons c p ih =>
    intro mid s hp hs
    have hcne : c ≠ '{' := hp c (List.mem_cons_self c p)
    have hcond : ¬(c = '{' ∧ '}' ∈ p ++ ('{' :: mid ++ ['}']) ++ s) :=
      fun h => hcne h.1
    have hne : greedyBrace (c :: (p ++ ('{' :: mid ++ ['}']) ++ s)) = none := by
      simp only [greedyBrace, if_neg hcond]
    have : (c :: p) ++ ('{' :: mid ++ ['}']) ++ s
        = c :: (p ++ ('{' :: mid ++ ['}']) ++ s) := by simp
    rw [this]
    simp only [reSearchDotAll, hne]
    exact ih mid s (fun d hd => hp d (List.mem_cons_of_mem c hd)) hs

-- ───────────── strip decomposition ─────────────

theorem pyStrip_decomp (pre mid suf : PyStr) :
    pyStrip (pre ++ ('{' :: mid ++ ['}']) ++ suf)
      = List.dropWhile pyIsSpace pre ++ ('{' :: mid ++ ['}'])
          ++ (List.dropWhile pyIsSpace suf.reverse).reverse := by
  have hopen : pyIsSpace '{' = false := by decide
  have hclose : pyIsSpace '}' = false := by decide
  have h1 : pre ++ ('{' :: mid ++ ['}']) ++ suf
      = pre ++ '{' :: (mid ++ '}' :: suf) := by simp
  unfold pyStrip
  rw [h1, dropWhile_append_cons pyIsSpace '{' hopen]
  have h2 : (List.dropWhile pyIsSpace pre ++ '{' :: (mid ++ '}' :: suf)).reverse
      = suf.reverse ++ '}' :: (mid.reverse ++ '{' :: (List.dropWhile pyIsSpace pre).reverse) := by
    simp [List.reverse_append, List.reverse_cons, List.append_assoc]
  rw [h2, dropWhile_append_cons pyIsSpace '}' hclose]
  simp [List.reverse_append, List.reverse_cons, List.append_assoc]

/-- The parse step on a reply that is exactly one brace-delimited JSON block
surrounded by brace-free text: `json.loads` is applied to the block, and its
decoded mapping is returned as-is. -/
theorem parseStep_extract (jl : PyStr → Option PyDict) (pre mid suf : PyStr) (m : PyDict)
    (hpre : ∀ c ∈ pre, c ≠ '{' ∧ c ≠ '}') (hsuf : ∀ c ∈ suf, c ≠ '{' ∧ c ≠ '}')
    (hm : jl ('{' :: mid ++ ['}']) = some m) :
    parseStep jl (pre ++ ('{' :: mid ++ ['}']) ++ suf) = m := by
  have hpre2 : ∀ c ∈ List.dropWhile pyIsSpace pre, c ≠ '{' :=
    fun c hc => (hpre c (mem_of_mem_dropWhile pyIsSpace pre c hc)).1
  have hsuf2 : ∀ c ∈ (List.dropWhile pyIsSpace suf.reverse).reverse, c ≠ '}' := by
    intro c hc
    rw [List.mem_reverse] at hc
    have := mem_of_mem_dropWhile pyIsSpace suf.reverse c hc
    rw [List.mem_reverse] at this
    exact (hsuf c this).2
  have hre : reSearchDotAll (pyStrip (pre ++ ('{' :: mid ++ ['}']) ++ suf))
      = some ('{' :: mid ++ ['}']) := by
    rw [pyStrip_decomp]
    exact reSearch_extract _ mid _ hpre2 hsuf2
  simp only [parseStep]
  rw [hre]
  simp only [hm]

-- ───────────── allergen catalog and text prompt (app.py lines 16-21, 125-168) ─────────────

/-- MAJOR_ALLERGENS (app.py lines 16-21), the fixed allergen catalog. -/
def MAJOR_ALLERGENS : List PyStr :=
  [("우유/유제품").data, ("달걀/난류").data, ("땅콩").data, ("견과류").data, ("밀/글루텐").data,
   ("대두/콩").data, ("생선/어류").data, ("갑각류(새우,게,랍스터)").data, ("조개류/패류").data,
   ("참깨").data, ("아황산염").data, ("메밀").data, ("돼지고기").data, ("소고기").data,
   ("닭고기").data, ("복숭아").data, ("토마토").data, ("키위").data, ("바나나").data,
   ("아보카도").data]

/-- Template text of the analyze_text_with_ai f-string before `{text}`. -/
def textPromptPre : PyStr :=
  ("\n    당신은 학교 급식 영양사이자 알레르기 전문가입니다.\n    다음 텍스트(급식 메뉴 또는 식단표)를 분석하여 알레르기 정보를 추출해주세요.\n\n    텍스트: ").data

/-- Template text between `{text}` and the joined allergen catalog. -/
def textPromptMid : PyStr :=
  ("\n\n    주요 확인 알레르기: ").data

/-- Template text of the analyze_text_with_ai f-string after the catalog
(the requested JSON shape and the closing notes; literal braces written
as hex escapes). -/
def textPromptPost : PyStr :=
  ("\n\n    다음 JSON 형식으로 상세하게 응답해주세요:\n    \x7b\n        \"identified_menus\": [\n            \x7b\n                \"menu_name\": \"메뉴명\",\n                \"likely_ingredients\": [\"추정 재료들\"],\n                \"allergen_analysis\": [\n                    \x7b\n                        \"allergen\": \"알레르기 유발 물질\",\n                        \"confidence\": \"확실함/가능성높음/가능성있음\",\n                        \"source_ingredient\": \"유래 재료\",\n                        \"risk_level\": \"고도/중등도/경도\",\n                        \"notes\": \"추가 설명\"\n                    \x7d\n                ]\n            \x7d\n        ],\n        \"summary\": \x7b\n            \"total_allergens_found\": [\"발견된 모든 알레르기\"],\n            \"high_confidence_allergens\": [\"확실한 알레르기\"],\n            \"possible_allergens\": [\"가능성 있는 알레르기\"],\n            \"menu_safety_score\": \"1-10점\",\n            \"special_warnings\": [\"특별 주의사항\"]\n        \x7d,\n        \"detailed_recommendations\": \x7b\n            \"for_allergic_students\": [\"알레르기 학생을 위한 조언\"],\n            \"for_kitchen_staff\": [\"조리실 직원을 위한 조언\"],\n            \"alternative_options\": [\"대체 메뉴 제안\"]\n        \x7d\n    \x7d\n\n    참고사항:\n    - 한국 음식의 일반적인 재료를 고려하세요\n    - 숨겨진 알레르기 성분(소스, 양념 등)도 추정하세요\n    - 조리 과정에서의 교차 오염 가능성도 언급하세요\n    ").data

/-- The prompt built by analyze_text_with_ai (app.py lines 125-168): the
template with the input text and `', '.join(MAJOR_ALLERGENS)` interpolated.
A pure function of the input and the catalog; total, so it cannot throw. -/
def textPrompt (text : PyStr) : PyStr :=
  textPromptPre ++ text ++ textPromptMid
    ++ List.intercalate (", ").data MAJOR_ALLERGENS ++ textPromptPost

-- ───────────── the model-call retry loop (app.py lines 84-102 / 170-182) ─────────────

/-- Outcome of one `client.chat.completions.create` attempt: a reply string,
or one of the two exception classes caught by the source
(`RateLimitError`, `APIConnectionError`).  Any other exception would
propagate out of the source function and is outside this model. -/
inductive CallResult where
  | ok : PyStr → CallResult
  | rateLimit : CallResult
  | connError : CallResult

/-- Whether the attempt raised one of the two caught (transient) exceptions. -/
def isTransient : CallResult → Bool
  | CallResult.ok _ => false
  | CallResult.rateLimit => true
  | CallResult.connError => true

/-- Result of the whole `for i in range(max_retries + 1)` loop: the reply
that `break` left in `res`, or the early return `{"error": "API 호출 실패"}`. -/
inductive CallOutcome where
  | success : PyStr → CallOutcome
  | apiFail : CallOutcome

/-- The retry loop of app.py lines 84-102 / 170-182, from loop index `i`,
with `fuel` the number of remaining iterations (the loop runs indices
`0 .. max_retries`, so it is entered with `fuel = max_retries + 1 - i`; the
`fuel = 0` case is unreachable because the `i == max_retries` early return
fires first).  Returns the outcome, the number of attempted calls, and the
list of `time.sleep` durations (`2 ** i` after the failed call at index `i`). -/
def retryAux (call : Nat → CallResult) (maxRetries : Nat) : Nat → Nat → CallOutcome × Nat × List Nat
  | _, 0 => (CallOutcome.apiFail, 0, [])
  | i, fuel + 1 =>
    match call i with
    | CallResult.ok r => (CallOutcome.success r, 1, [])
    | CallResult.rateLimit =>
      if i = maxRetries then (CallOutcome.apiFail, 1, [])
      else
        let rest := retryAux call maxRetries (i + 1) fuel
        (rest.1, rest.2.1 + 1, 2 ^ i :: rest.2.2)
    | CallResult.connError =>
      if i = maxRetries then (CallOutcome.apiFail, 1, [])
      else
        let rest := retryAux call maxRetries (i + 1) fuel
        (rest.1, rest.2.1 + 1, 2 ^ i :: rest.2.2)

/-- The retry loop entered at index 0, as in the source. -/
def retryLoop (call : Nat → CallResult) (maxRetries : Nat) : CallOutcome × Nat × List Nat :=
  retryAux call maxRetries 0 (maxRetries + 1)

/-- Common body of the two analysis functions: retry loop, then — on a
successful call — the parse step; on exhausted retries the literal
`{"error": "API 호출 실패"}` is returned.  The second and third components
are the observable effects: number of API calls attempted and the sleeps. -/
def analyzeCore (jl : PyStr → Option PyDict) (call : Nat → CallResult) (maxRetries : Nat) :
    PyDict × Nat × List Nat :=
  match retryLoop call maxRetries with
  | (CallOutcome.success r, n, sl) => (parseStep jl r, n, sl)
  | (CallOutcome.apiFail, n, sl) =>
    ([(("error").data, PyVal.pstr ("API 호출 실패").data)], n, sl)

/-- analyze_food_image_with_ai (app.py lines 25-112).  The image bytes, their
base64 data URI and the fixed image prompt are consumed only by the API call,
so they are absorbed into the call oracle `call` (attempt index ↦ outcome);
`jl` is the `json.loads` oracle. -/
def analyze_food_image_with_ai (jl : PyStr → Option PyDict) (call : Nat → CallResult)
    (maxRetries : Nat) : PyDict × Nat × List Nat :=
  analyzeCore jl call maxRetries

/-- analyze_text_with_ai (app.py lines 116-192): builds `textPrompt text`,
then runs the same retry loop and parse step; the API oracle receives the
built prompt. -/
def analyze_text_with_ai (jl : PyStr → Option PyDict) (api : PyStr → Nat → CallResult)
    (text : PyStr) (maxRetries : Nat) : PyDict × Nat × List Nat :=
  analyzeCore jl (api (textPrompt text)) maxRetries

-- ───────────── retry loop lemmas ─────────────

theorem range_pow_shift (i N : Nat) :
    (List.range (N + 1)).map (fun k => 2 ^ (i + k))
      = 2 ^ i :: (List.range N).map (fun k => 2 ^ (i + 1 + k)) := by
  rw [List.range_succ_eq_map]
  simp only [List.map_cons, List.map_map, Nat.add_zero]
  congr 1
  apply List.map_congr_left
  intro k _
  simp only [Function.comp_apply]
  congr 1
  omega

theorem retryAux_ok (call : Nat → CallResult) (maxr : Nat) (r : PyStr) :
    ∀ (N i fuel : Nat), N + 1 ≤ fuel → i + N ≤ maxr →
      (∀ k, k < N → isTransient (call (i + k)) = true) →
      call (i + N) = CallResult.ok r →
      retryAux call maxr i fuel
        = (CallOutcome.success r, N + 1, (List.range N).map (fun k => 2 ^ (i + k))) := by
  intro N
  induction N with
  | zero =>
    intro i fuel hfuel _ _ hok
    obtain ⟨f, rfl⟩ : ∃ f, fuel = f + 1 := ⟨fuel - 1, by omega⟩
    rw [Nat.add_zero] at hok
    simp [retryAux, hok]
  | succ N ih =>
    intro i fuel hfuel hle htr hok
    obtain ⟨f, rfl⟩ : ∃ f, fuel = f + 1 := ⟨fuel - 1, by omega⟩
    have h0 : isTransient (call i) = true := by
      have := htr 0 (Nat.succ_pos N)
      rwa [Nat.add_zero] at this
    have hine : ¬(i = maxr) := by omega
    have hrec : retryAux call maxr (i + 1) f
        = (CallOutcome.success r, N + 1, (List.range N).map (fun k => 2 ^ (i + 1 + k))) := by
      apply ih (i + 1) f (by omega) (by omega)
      · intro k hk
        have := htr (k + 1) (by omega)
        rwa [show i + (k + 1) = i + 1 + k by omega] at this
      · rwa [show i + 1 + N = i + (N + 1) by omega]
    rw [range_pow_shift]
    cases hcall : call i with
    | ok s => rw [hcall] at h0; simp [isTransient] at h0
    | rateLimit =>
      simp only [retryAux, hcall, if_neg hine, hrec]
    | connError =>
      simp only [retryAux, hcall, if_neg hine, hrec]

theorem retryAux_exhaust (call : Nat → CallResult) (maxr : Nat) :
    ∀ (j i fuel : Nat), i + j = maxr → j + 1 ≤ fuel →
      (∀ k, i ≤ k → k ≤ maxr → isTransient (call k) = true) →
      retryAux call maxr i fuel
        = (CallOutcome.apiFail, j + 1, (List.range j).map (fun k => 2 ^ (i + k))) := by
  intro j
  induction j with
  | zero =>
    intro i fuel heq hfuel htr
    obtain ⟨f, rfl⟩ : ∃ f, fuel = f + 1 := ⟨fuel - 1, by omega⟩
    have hieq : i = maxr := by omega
    subst hieq
    have h0 : isTransient (call i) = true := htr i (Nat.le_refl i) (by omega)
    cases hcall : call i with
    | ok s => rw [hcall] at h0; simp [isTransient] at h0
    | rateLimit => simp [retryAux, hcall]
    | connError => simp [retryAux, hcall]
  | succ j ih =>
    intro i fuel heq hfuel htr
    obtain ⟨f, rfl⟩ : ∃ f, fuel = f + 1 := ⟨fuel - 1, by omega⟩
    have h0 : isTransient (call i) = true := htr i (Nat.le_refl i) (by omega)
    have hine : ¬(i = maxr) := by omega
    have hrec : retryAux call maxr (i + 1) f
        = (CallOutcome.apiFail, j + 1, (List.range j).map (fun k => 2 ^ (i + 1 + k))) := by
      apply ih (i + 1) f (by omega) (by omega)
      intro k hk1 hk2
      exact htr k (by omega) hk2
    rw [range_pow_shift]
    cases hcall : call i with
    | ok s => rw [hcall] at h0; simp [isTransient] at h0
    | rateLimit => simp only [retryAux, hcall, if_neg hine, hrec]
    | connError => simp only [retryAux, hcall, if_neg hine, hrec]

theorem retryLoop_ok (call : Nat → CallResult) (maxr N : Nat) (r : PyStr)
    (hN : N ≤ maxr) (htr : ∀ k, k < N → isTransient (call k) = true)
    (hok : call N = CallResult.ok r) :
    retryLoop call maxr
      = (CallOutcome.success r, N + 1, (List.range N).map (fun k => 2 ^ k)) := by
  have := retryAux_ok call maxr r N 0 (maxr + 1) (by omega) (by omega)
    (by intro k hk; simpa using htr k hk) (by simpa using hok)
  rw [retryLoop, this]
  simp

theorem retryLoop_exhaust (call : Nat → CallResult) (maxr : Nat)
    (htr : ∀ k, k ≤ maxr → isTransient (call k) = true) :
    retryLoop call maxr
      = (CallOutcome.apiFail, maxr + 1, (List.range maxr).map (fun k => 2 ^ k)) := by
  have := retryAux_exhaust call maxr maxr 0 (maxr + 1) (by omega) (by omega)
    (by intro k _ hk2; exact htr k hk2)
  rw [retryLoop, this]
  simp

theorem analyzeCore_ok (jl : PyStr → Option PyDict) (call : Nat → CallResult)
    (maxr N : Nat) (r : PyStr)
    (hN : N ≤ maxr) (htr : ∀ k, k < N → isTransient (call k) = true)
    (hok : call N = CallResult.ok r) :
    analyzeCore jl call maxr
      = (parseStep jl r, N + 1, (List.range N).map (fun k => 2 ^ k)) := by
  rw [analyzeCore, retryLoop_ok call maxr N r hN htr hok]

theorem analyzeCore_exhaust (jl : PyStr → Option PyDict) (call : Nat → CallResult)
    (maxr : Nat) (htr : ∀ k, k ≤ maxr → isTransient (call k) = true) :
    analyzeCore jl call maxr
      = ([(("error").data, PyVal.pstr ("API 호출 실패").data)], maxr + 1,
         (List.range maxr).map (fun k => 2 ^ k)) := by
  rw [analyzeCore, retryLoop_exhaust call maxr htr]

-- ───────────── generate_ai_report (app.py lines 196-299) ─────────────

/-- Outcome of the single (unretried) model call inside generate_ai_report:
a reply string, or any raised exception with `str(e) = msg` (the source
catches bare `Exception`). -/
inductive ReportCall where
  | ok : PyStr → ReportCall
  | exc : PyStr → ReportCall

/-- generate_ai_report (app.py lines 196-299).  The analysis results and the
source label only feed the prompt, which the call oracle consumes, so they do
not affect the returned value; on success the reply is stripped, on any
exception the literal failure f-string is returned. -/
def generate_ai_report (results : List PyDict) (source : PyStr) (call : ReportCall) : PyStr :=
  match results, source, call with
  | _, _, ReportCall.ok reply => pyStrip reply
  | _, _, ReportCall.exc msg => ("보고서 생성 실패: ").data ++ msg

-- ───────────── extract_pdf_text (app.py lines 361-370) ─────────────

/-- A PDF file as seen through pypdf: either a readable list of per-page
extracted texts, or a read that raises an exception with `str(e) = msg`. -/
inductive PdfFile where
  | pages : List PyStr → PdfFile
  | failure : PyStr → PdfFile

/-- extract_pdf_text (app.py lines 361-370): `text += page.extract_text() + "\n"`
per page; on any exception the literal error f-string is returned instead of
raising. -/
def extract_pdf_text : PdfFile → PyStr
  | PdfFile.pages ps => ps.foldl (fun acc p => acc ++ p ++ ['\n']) []
  | PdfFile.failure msg => ("PDF 읽기 오류: ").data ++ msg

-- ───────────── the Excel tab text blob (app.py lines 627-632) ─────────────

/-- One cell of an object-dtype pandas column: missing (NaN) or a string.
`astype(str)` is the identity on string cells; NaN cells are removed by
`dropna()` before it runs. -/
inductive PCell where
  | nan : PCell
  | sval : PyStr → PCell

/-- One column of the uploaded frame: object dtype (text) with its cells, or
a non-object (e.g. numeric) dtype, whose content the loop never touches. -/
inductive PColumn where
  | objCol : PyStr → List PCell → PColumn
  | numCol : PyStr → List Int → PColumn

/-- `df[col].dropna()` restricted to an object column, keeping the string
cells (including empty strings, which are not NaN). -/
def dropna (cells : List PCell) : List PyStr :=
  cells.filterMap (fun c => match c with
    | PCell.nan => none
    | PCell.sval s => some s)

/-- The contribution of one column to `all_text`: nothing for a non-object
column; otherwise `"\n[" + col + "]\n"` followed by the newline-join of the
kept cells and a trailing newline (app.py lines 630-632). -/
def colText : PColumn → PyStr
  | PColumn.numCol _ _ => []
  | PColumn.objCol name cells =>
    ("\n[").data ++ name ++ ("]\n").data
      ++ List.intercalate ['\n'] (dropna cells) ++ ("\n").data

/-- The `all_text` accumulation loop of the Excel tab (app.py lines 628-632). -/
def all_text (df : List PColumn) : PyStr :=
  df.foldl (fun acc col => acc ++ colText col) []

-- ───────────── top-level script order (app.py lines 374-388) ─────────────

/-- Events of the top-level script run, named after the spec's components;
page chrome before the credential check is presentation only. -/
inductive AppEvent where
  | renderUI : AppEvent
  | configError : AppEvent
  | halted : AppEvent
  | inputAcq : AppEvent
  | promptBuild : AppEvent
  | networkCall : AppEvent
  | respParse : AppEvent
  | reportSynth : AppEvent
deriving DecidableEq

/-- The top-level script (app.py lines 374-455 onward): if the
`OPENAI_API_KEY` secret is absent, `st.error` then `st.stop()` halt the run
before any tab or sidebar handler exists; otherwise the UI is rendered and a
pressed analysis button drives the analysis pipeline (one model pass shown). -/
def app_main (hasKey : Bool) (pressed : Bool) : List AppEvent :=
  if !hasKey then [AppEvent.configError, AppEvent.halted]
  else
    [AppEvent.renderUI]
      ++ (if pressed then
            [AppEvent.inputAcq, AppEvent.promptBuild, AppEvent.networkCall,
             AppEvent.respParse, AppEvent.reportSynth, AppEvent.renderUI]
          else [])

-- ───────────── the image tab loop (app.py lines 476-520) ─────────────

/-- `"error" in result`: the per-image analysis dict carries an error key. -/
def hasErrorKey (d : PyDict) : Bool :=
  d.any (fun kv => kv.1 == ("error").data)

/-- Output of the image-tab button handler: collected successful results, the
error results shown inline, and the input of the report synthesis call when
one is made. -/
structure ImagesOut where
  successes : List PyDict
  failures : List PyDict
  report : Option (List PyDict)

/-- The analyze_images button handler (app.py lines 476-520): iterate over
the per-image analysis results in order, collecting the ones without an
`"error"` key into `analysis_results` and showing the rest as errors; then
generate a report from `analysis_results` exactly when it is non-empty. -/
def analyze_images_handler (results : List PyDict) : ImagesOut :=
  let step := results.foldl
    (fun (acc : List PyDict × List PyDict) r =>
      if hasErrorKey r then (acc.1, acc.2 ++ [r]) else (acc.1 ++ [r], acc.2))
    ([], [])
  { successes := step.1
    failures := step.2
    report := if step.1.isEmpty then none else some step.1 }

-- ───────────── the PDF tab gate (app.py lines 700-742) ─────────────

/-- Python's substring test `pat in s`. -/
def containsSub (pat : PyStr) : PyStr → Bool
  | [] => pat.isEmpty
  | c :: rest => pat.isPrefixOf (c :: rest) || containsSub pat rest

/-- What the PDF tab does with the extracted text: proceed to
analyze_text_with_ai, or display the text as an error. -/
inductive PdfTabOutcome where
  | analyzed : PyStr → PdfTabOutcome
  | errorShown : PyStr → PdfTabOutcome
deriving DecidableEq

/-- The analyze_pdf button handler (app.py lines 700-742): extract the text,
then branch on `"오류" not in pdf_text` — analysis proceeds only when the
substring is absent, otherwise the text itself is shown via `st.error`. -/
def analyze_pdf_handler (pdf : PdfFile) : PdfTabOutcome :=
  let t := extract_pdf_text pdf
  if containsSub ("오류").data t then PdfTabOutcome.errorShown t
  else PdfTabOutcome.analyzed t

-- ───────────── claim theorems ─────────────

/-- C1: with retry bound `maxr`, if the first `N` calls raise a transient
failure (`N ≤ maxr`) and call `N+1` succeeds, both analysis functions proceed
with the successful reply into the parse step, attempting exactly `N+1` calls
and sleeping `2^i` seconds after the `i`-th failed call; if every call
through the bound fails transiently, exactly `maxr+1` calls are attempted and
the literal error dict `{"error": "API 호출 실패"}` is returned instead of an
exception propagating. -/
theorem model_call_retry (jl : PyStr → Option PyDict) (callA callB : Nat → CallResult)
    (t : PyStr) (maxr N : Nat) (r : PyStr)
    (hN : N ≤ maxr)
    (hA1 : ∀ k, k < N → isTransient (callA k) = true)
    (hA2 : callA N = CallResult.ok r)
    (hB : ∀ k, k ≤ maxr → isTransient (callB k) = true) :
    analyze_food_image_with_ai jl callA maxr
        = (parseStep jl r, N + 1, (List.range N).map (fun k => 2 ^ k))
    ∧ analyze_text_with_ai jl (fun _ => callA) t maxr
        = (parseStep jl r, N + 1, (List.range N).map (fun k => 2 ^ k))
    ∧ analyze_food_image_with_ai jl callB maxr
        = ([(("error").data, PyVal.pstr ("API 호출 실패").data)], maxr + 1,
           (List.range maxr).map (fun k => 2 ^ k))
    ∧ analyze_text_with_ai jl (fun _ => callB) t maxr
        = ([(("error").data, PyVal.pstr ("API 호출 실패").data)], maxr + 1,
           (List.range maxr).map (fun k => 2 ^ k)) := by
  refine ⟨?_, ?_, ?_, ?_⟩
  · exact analyzeCore_ok jl callA maxr N r hN hA1 hA2
  · exact analyzeCore_ok jl callA maxr N r hN hA1 hA2
  · exact analyzeCore_exhaust jl callB maxr hB
  · exact analyzeCore_exhaust jl callB maxr hB

/-- Witness for C1: bound 2, one rate-limited call then a success (so two
calls and one 1-second sleep), against a client that always fails. -/
theorem model_call_retry_witness :
    analyze_food_image_with_ai (fun _ => none)
        (fun n => if n = 0 then CallResult.rateLimit else CallResult.ok ['{', '}']) 2
      = (parseStep (fun _ => none) ['{', '}'], 1 + 1, (List.range 1).map (fun k => 2 ^ k))
    ∧ analyze_text_with_ai (fun _ => none)
        (fun _ => fun n => if n = 0 then CallResult.rateLimit else CallResult.ok ['{', '}'])
        (("급식").data) 2
      = (parseStep (fun _ => none) ['{', '}'], 1 + 1, (List.range 1).map (fun k => 2 ^ k))
    ∧ analyze_food_image_with_ai (fun _ => none) (fun _ => CallResult.connError) 2
      = ([(("error").data, PyVal.pstr ("API 호출 실패").data)], 2 + 1,
         (List.range 2).map (fun k => 2 ^ k))
    ∧ analyze_text_with_ai (fun _ => none) (fun _ => fun _ => CallResult.connError)
        (("급식").data) 2
      = ([(("error").data, PyVal.pstr ("API 호출 실패").data)], 2 + 1,
         (List.range 2).map (fun k => 2 ^ k)) :=
  model_call_retry (fun _ => none)
    (fun n => if n = 0 then CallResult.rateLimit else CallResult.ok ['{', '}'])
    (fun _ => CallResult.connError) (("급식").data) 2 1 ['{', '}']
    (by omega) (by decide) rfl (fun _ _ => rfl)

/-- C2: for a reply whose stripped text has an opening brace later followed
by a closing brace, the regex group handed to `json.loads` is exactly the
substring from the first opening brace through the last closing brace; and a
reply that is one decodable brace-delimited JSON object with no other brace
characters around it parses to the decoded mapping, in both analysis
functions. -/
theorem response_parse_greedy (jl : PyStr → Option PyDict)
    (reply pre mid suf t : PyStr) (m : PyDict) (maxr : Nat)
    (h1 : HasBracePair (pyStrip reply))
    (hpre : ∀ c ∈ pre, c ≠ '{' ∧ c ≠ '}')
    (hsuf : ∀ c ∈ suf, c ≠ '{' ∧ c ≠ '}')
    (hm : jl ('{' :: mid ++ ['}']) = some m) :
    reSearchDotAll (pyStrip reply) = some (firstToLast (pyStrip reply))
    ∧ parseStep jl reply
        = (match jl (firstToLast (pyStrip reply)) with
           | some d => d
           | none => [(("error").data, PyVal.pstr ("JSON 파싱 오류").data),
                      (("raw").data, PyVal.pstr (pyStrip reply))])
    ∧ parseStep jl (pre ++ ('{' :: mid ++ ['}']) ++ suf) = m
    ∧ analyze_food_image_with_ai jl
        (fun _ => CallResult.ok (pre ++ ('{' :: mid ++ ['}']) ++ suf)) maxr = (m, 1, [])
    ∧ analyze_text_with_ai jl
        (fun _ _ => CallResult.ok (pre ++ ('{' :: mid ++ ['}']) ++ suf)) t maxr
        = (m, 1, []) := by
  have hfirst := reSearch_eq_firstToLast _ h1
  have hext := parseStep_extract jl pre mid suf m hpre hsuf hm
  have hcore : analyzeCore jl
      (fun _ => CallResult.ok (pre ++ ('{' :: mid ++ ['}']) ++ suf)) maxr = (m, 1, []) := by
    have h := analyzeCore_ok jl
      (fun _ => CallResult.ok (pre ++ ('{' :: mid ++ ['}']) ++ suf)) maxr 0
      (pre ++ ('{' :: mid ++ ['}']) ++ suf) (Nat.zero_le maxr)
      (fun k hk => absurd hk (Nat.not_lt_zero k)) rfl
    rw [h, hext]
    simp
  refine ⟨hfirst, ?_, hext, hcore, hcore⟩
  simp only [parseStep]
  rw [hfirst]

/-- Witness for C2: reply `"x{1}y"`, and the block reply `"a {1} b"` with a
`json.loads` oracle decoding the block. -/
theorem response_parse_greedy_witness :
    HasBracePair (pyStrip (("x\x7b1\x7dy").data))
    ∧ parseStep (fun _ => some [(("ok").data, PyVal.pint 1)])
        ((("a ").data) ++ ('{' :: (("1").data) ++ ['}']) ++ ((" b").data))
      = [(("ok").data, PyVal.pint 1)] :=
  ⟨by decide,
   (response_parse_greedy (fun _ => some [(("ok").data, PyVal.pint 1)])
      (("x\x7b1\x7dy").data) (("a ").data) (("1").data) ((" b").data) []
      [(("ok").data, PyVal.pint 1)] 2
      (by decide) (by decide) (by decide) rfl).2.2.1⟩

/-- C3 counterexample: for the reply `" x "` (no braces), the error dict's
`"raw"` entry holds the stripped text `"x"`, which differs from the original
raw reply — `content` is stripped before being stored, so the claim's
"original raw reply text unmodified" fails. -/
theorem parse_raw_not_original :
    parseStep (fun _ => none) ([' '] ++ ['x'] ++ [' '])
      = [(("error").data, PyVal.pstr ("응답 파싱 실패").data),
         (("raw").data, PyVal.pstr ['x'])]
    ∧ (['x'] : PyStr) ≠ [' '] ++ ['x'] ++ [' '] :=
  ⟨rfl, by decide⟩

/-- C3 (amended): on a reply whose stripped text has no brace span, or whose
matched group fails strict JSON decoding, the parse step returns (without
raising, the model functions being total) an error dict carrying an `"error"`
key and a `"raw"` key — holding the whitespace-stripped reply text, not the
original reply. -/
theorem parse_failure_marker (jl : PyStr → Option PyDict) (r1 r2 g : PyStr)
    (h1 : reSearchDotAll (pyStrip r1) = none)
    (h2 : reSearchDotAll (pyStrip r2) = some g)
    (h3 : jl g = none) :
    parseStep jl r1
      = [(("error").data, PyVal.pstr ("응답 파싱 실패").data),
         (("raw").data, PyVal.pstr (pyStrip r1))]
    ∧ parseStep jl r2
      = [(("error").data, PyVal.pstr ("JSON 파싱 오류").data),
         (("raw").data, PyVal.pstr (pyStrip r2))] := by
  constructor
  · simp only [parseStep]
    rw [h1]
  · simp only [parseStep]
    rw [h2]
    simp only [h3]

/-- Witness for C3 (amended): reply `"no json"` (no braces) and reply
`"a{1}b"` whose group `"{1}"` fails decoding. -/
theorem parse_failure_marker_witness :
    reSearchDotAll (pyStrip (("no json").data)) = none
    ∧ parseStep (fun _ => none) (("a\x7b1\x7db").data)
      = [(("error").data, PyVal.pstr ("JSON 파싱 오류").data),
         (("raw").data, PyVal.pstr (pyStrip (("a\x7b1\x7db").data)))] :=
  ⟨by decide,
   (parse_failure_marker (fun _ => none) (("no json").data) (("a\x7b1\x7db").data)
      (("\x7b1\x7d").data) (by decide) (by decide) rfl).2⟩

/-- C4 counterexample: a successful model call whose reply is empty makes
generate_ai_report return the empty string, refuting "always returns a
non-empty text value" (an all-whitespace reply strips to empty as well). -/
theorem report_empty_reply :
    generate_ai_report [] (("이미지 파일").data) (ReportCall.ok []) = [] := rfl

/-- C4 (amended): generate_ai_report is total (never raises) and independent
of the analysis results and source label; on success it returns the stripped
model reply — which may be empty when the reply is whitespace-only — and on
any model-call failure it returns a non-empty text stating the failure, so
the caller needs no special-case error handling. -/
theorem report_synth_amended (results : List PyDict) (source : PyStr) (reply msg : PyStr) :
    generate_ai_report results source (ReportCall.ok reply) = pyStrip reply
    ∧ generate_ai_report results source (ReportCall.exc msg)
        = ("보고서 생성 실패: ").data ++ msg
    ∧ generate_ai_report results source (ReportCall.exc msg) ≠ [] := by
  refine ⟨rfl, rfl, ?_⟩
  intro h
  exact List.cons_ne_nil _ _ h

/-- C5: with the OPENAI_API_KEY secret absent, the script surfaces the
configuration error and halts, whatever the user would press; no network
call (and no other pipeline component) appears in the run. -/
theorem credential_absent_halts (pressed : Bool) :
    app_main false pressed = [AppEvent.configError, AppEvent.halted]
    ∧ AppEvent.networkCall ∉ app_main false pressed
    ∧ AppEvent.promptBuild ∉ app_main false pressed := by
  refine ⟨rfl, ?_, ?_⟩ <;> simp [app_main]

/-- C6 counterexample: with a literal empty-string cell between `쌀밥` and
`김치`, `dropna()` keeps it (it removes only NaN), so the blob carries a
blank line between the two values — the claim's "empty-string cells omitted"
fails on the code. -/
theorem excel_empty_kept :
    all_text [PColumn.objCol (("메뉴").data)
        [PCell.sval (("쌀밥").data), PCell.sval [], PCell.sval (("김치").data)],
      PColumn.numCol (("칼로리").data) [100, 200, 300]]
      = ("\n[메뉴]\n쌀밥\n\n김치\n").data
    ∧ ("\n[메뉴]\n쌀밥\n\n김치\n").data ≠ ("\n[메뉴]\n쌀밥\n김치\n").data :=
  ⟨rfl, by decide⟩

/-- C6 (amended): the blob is built only from object-dtype columns — a
numeric column contributes nothing — each object column contributing its
bracketed header and its non-NaN cell values joined by newlines plus a
trailing newline; missing (NaN) cells are omitted but empty-string cells are
kept as empty lines.  With the scenario's `""` read as a missing cell, the
blob is exactly `쌀밥` and `김치` joined by one newline. -/
theorem excel_normalizer_amended (df : List PColumn) (name nname : PyStr)
    (cells : List PCell) (ncells : List Int) :
    all_text (df ++ [PColumn.numCol nname ncells]) = all_text df
    ∧ all_text (df ++ [PColumn.objCol name cells])
        = all_text df ++ ("\n[").data ++ name ++ ("]\n").data
            ++ List.intercalate ['\n'] (dropna cells) ++ ("\n").data
    ∧ all_text [PColumn.objCol (("메뉴").data)
          [PCell.sval (("쌀밥").data), PCell.nan, PCell.sval (("김치").data)],
        PColumn.numCol (("칼로리").data) [100, 200]]
        = ("\n[메뉴]\n쌀밥\n김치\n").data := by
  refine ⟨?_, ?_, rfl⟩
  · simp [all_text, List.foldl_append, colText]
  · simp [all_text, List.foldl_append, colText, List.append_assoc]

theorem extract_pdf_foldl (ps : List PyStr) :
    ∀ acc : PyStr, ps.foldl (fun a p => a ++ p ++ ['\n']) acc
      = acc ++ (ps.map (fun p => p ++ ['\n'])).flatten := by
  induction ps with
  | nil => intro acc; simp
  | cons p ps ih =>
    intro acc
    rw [List.foldl_cons, ih]
    simp [List.append_assoc]

/-- C7: extract_pdf_text returns the per-page texts, each with a newline
appended, concatenated in page order; on an extraction exception it returns
the error-indicator text (with its literal Korean error marker as a leading
segment) instead of raising — the function is total. -/
theorem pdf_extract_contract (ps : List PyStr) (msg : PyStr) :
    extract_pdf_text (PdfFile.pages ps) = (ps.map (fun p => p ++ ['\n'])).flatten
    ∧ extract_pdf_text (PdfFile.failure msg) = ("PDF 읽기 오류: ").data ++ msg
    ∧ List.IsPrefix (("PDF 읽기 오류: ").data) (extract_pdf_text (PdfFile.failure msg)) := by
  refine ⟨?_, rfl, ⟨msg, rfl⟩⟩
  simpa [extract_pdf_text] using extract_pdf_foldl ps []

/-- C8: the prompt built by analyze_text_with_ai is the literal template with
the full `', '`-joined 20-entry allergen catalog and the full input text
embedded verbatim (contiguously, untruncated and unmodified); prompt
construction is a total — hence non-throwing — pure function of the input
and the catalog, and analyze_text_with_ai consumes exactly this prompt. -/
theorem prompt_builder_contract (text : PyStr) :
    textPrompt text
      = textPromptPre ++ text ++ textPromptMid
          ++ List.intercalate (", ").data MAJOR_ALLERGENS ++ textPromptPost
    ∧ List.IsInfix text (textPrompt text)
    ∧ List.IsInfix (List.intercalate (", ").data MAJOR_ALLERGENS) (textPrompt text)
    ∧ MAJOR_ALLERGENS.length = 20
    ∧ (∀ (jl : PyStr → Option PyDict) (api : PyStr → Nat → CallResult) (maxr : Nat),
        analyze_text_with_ai jl api text maxr = analyzeCore jl (api (textPrompt text)) maxr) := by
  refine ⟨rfl, ?_, ?_, rfl, fun _ _ _ => rfl⟩
  · exact ⟨textPromptPre,
      textPromptMid ++ List.intercalate (", ").data MAJOR_ALLERGENS ++ textPromptPost,
      by simp [textPrompt, List.append_assoc]⟩
  · exact ⟨textPromptPre ++ text ++ textPromptMid, textPromptPost,
      by simp [textPrompt, List.append_assoc]⟩

theorem isEmpty_eq_nil (l : List PyDict) : l.isEmpty = true ↔ l = [] := by
  cases l <;> simp

theorem images_foldl (results : List PyDict) :
    ∀ (a b : List PyDict),
      results.foldl
        (fun (acc : List PyDict × List PyDict) r =>
          if hasErrorKey r then (acc.1, acc.2 ++ [r]) else (acc.1 ++ [r], acc.2))
        (a, b)
      = (a ++ results.filter (fun r => !hasErrorKey r),
         b ++ results.filter (fun r => hasErrorKey r)) := by
  induction results with
  | nil => intro a b; simp
  | cons r rs ih =>
    intro a b
    cases h : hasErrorKey r with
    | true => simp [List.foldl_cons, h, ih, List.filter_cons, List.append_assoc]
    | false => simp [List.foldl_cons, h, ih, List.filter_cons, List.append_assoc]

theorem filter_success_nil (results : List PyDict) :
    results.filter (fun r => !hasErrorKey r) = []
      ↔ ∀ r ∈ results, hasErrorKey r = true := by
  rw [List.filter_eq_nil_iff]
  constructor
  · intro h r hr
    have := h r hr
    simpa using this
  · intro h r hr
    simp [h r hr]

/-- C9: each per-image result carrying an `"error"` key is excluded from the
collected results and reported separately (both in input order); a report is
synthesized — from exactly the successful results — iff at least one image
analysis succeeded. -/
theorem images_partial_success (results : List PyDict) :
    (analyze_images_handler results).successes
        = results.filter (fun r => !hasErrorKey r)
    ∧ (analyze_images_handler results).failures
        = results.filter (fun r => hasErrorKey r)
    ∧ (analyze_images_handler results).report
        = (if (results.filter (fun r => !hasErrorKey r)).isEmpty then none
           else some (results.filter (fun r => !hasErrorKey r)))
    ∧ ((analyze_images_handler results).report
          = some (results.filter (fun r => !hasErrorKey r))
        ↔ ∃ r ∈ results, hasErrorKey r = false) := by
  have hfold := images_foldl results [] []
  refine ⟨?_, ?_, ?_, ?_⟩
  · simp [analyze_images_handler, hfold]
  · simp [analyze_images_handler, hfold]
  · simp [analyze_images_handler, hfold]
  · simp only [analyze_images_handler, hfold, List.nil_append]
    by_cases hF : results.filter (fun r => !hasErrorKey r) = []
    · rw [hF]
      simp only [List.isEmpty_nil, if_true]
      constructor
      · intro h; cases h
      · rintro ⟨r, hr, hfalse⟩
        have := (filter_success_nil results).mp hF r hr
        rw [this] at hfalse
        cases hfalse
    · have hne : (results.filter (fun r => !hasErrorKey r)).isEmpty = false := by
        cases he : (results.filter (fun r => !hasErrorKey r)).isEmpty
        · rfl
        · exact absurd ((isEmpty_eq_nil _).mp he) hF
      rw [hne]
      simp only [Bool.false_eq_true, if_false, true_iff]
      obtain ⟨r, hr⟩ := List.exists_mem_of_ne_nil _ hF
      have hm := List.mem_filter.mp hr
      refine ⟨r, hm.1, ?_⟩
      have := hm.2
      simpa using this

/-- C10: the PDF tab proceeds to AI analysis iff the text returned by
extract_pdf_text does not contain the substring `"오류"`; consequently a
successfully extracted PDF whose own content legitimately contains `"오류"`
is displayed as an error message and never analyzed. -/
theorem pdf_oryu_gate (pdf : PdfFile) :
    (analyze_pdf_handler pdf = PdfTabOutcome.analyzed (extract_pdf_text pdf)
      ↔ containsSub ("오류").data (extract_pdf_text pdf) = false)
    ∧ analyze_pdf_handler (PdfFile.pages [("급식 안내: 지난주 식단 오류 정정").data])
        = PdfTabOutcome.errorShown ((("급식 안내: 지난주 식단 오류 정정").data) ++ ['\n']) := by
  constructor
  · cases h : containsSub ("오류").data (extract_pdf_text pdf) with
    | true => simp [analyze_pdf_handler, h]
    | false => simp [analyze_pdf_handler, h]
  · rfl
